import Mathlib

/-!
Verification development for `magnum/api/controllers/v1/replicationcontroller.py`:
a shallow embedding of the ReplicationController API representation layer
(field projection, UUID resolution, collection assembly, JSON-patch merge)
together with theorems about its behaviour.

Collaborators of the controller module (`magnum.objects`, `types.JsonPatchType`
validation machinery, `api_utils`, the `collection`/`link` helpers and the
`wsme` sentinel) are not part of the source file; where a definition embeds one
of those, its doc comment starts with "Modelled from the spec:" and names the
missing piece.
-/

/-- A dynamically-typed API/field value.  `unset` is the wsme `Unset` sentinel
(distinct from `null`, which is Python `None`); `str`/`int`/`list`/`vmap`
cover the field types used by the ReplicationController representation
(text, integer, list of text, string-to-string mapping). -/
inductive Val where
  | str : String → Val
  | int : Int → Val
  | list : List String → Val
  | vmap : List (String × String) → Val
  | null : Val
  | unset : Val
deriving DecidableEq, Repr

/-- Python truthiness of a `Val`: `None`, `Unset`, `""`, `0`, `[]`, `{}` are
falsy, everything else is truthy. -/
def truthy : Val → Bool
  | .str s => !s.isEmpty
  | .int n => n != 0
  | .list l => !l.isEmpty
  | .vmap m => !m.isEmpty
  | .null => false
  | .unset => false

/-- Modelled from the spec: the DomainRecord owned by the persistence
collaborator (`objects.ReplicationController`), §3 — `id` (internal surrogate
key), `uuid`, `name`, `images`, `bay_uuid`, `selector`, `replicas`,
`rc_definition_url`, `rc_data`.  Timestamps are omitted: no claim depends on
them and the patch loop copies them through unchanged. -/
structure DomainRecord where
  id : Nat
  uuid : Val
  name : Val
  images : Val
  bay_uuid : Val
  selector : Val
  replicas : Val
  rc_definition_url : Val
  rc_data : Val
deriving DecidableEq, Repr

/-- Modelled from the spec: `objects.ReplicationController.fields`, the field
names of the DomainRecord (§3), iterated by `__init__` and the patch loop. -/
def objectFields : List String :=
  ["id", "uuid", "name", "images", "bay_uuid", "selector", "replicas",
   "rc_definition_url", "rc_data"]

/-- Modelled from the spec: `as_dict()` of a DomainRecord — its field values
as a flat mapping (association list), §4.5 input (a). -/
def DomainRecord.as_dict (d : DomainRecord) : List (String × Val) :=
  [("id", Val.int d.id), ("uuid", d.uuid), ("name", d.name),
   ("images", d.images), ("bay_uuid", d.bay_uuid), ("selector", d.selector),
   ("replicas", d.replicas), ("rc_definition_url", d.rc_definition_url),
   ("rc_data", d.rc_data)]

/-- `kwargs.get(field, wtypes.Unset)`: first binding of the key, defaulting to
the `Unset` sentinel. -/
def kwGet (kw : List (String × Val)) (f : String) : Val :=
  match kw with
  | [] => Val.unset
  | (k, v) :: rest => if k = f then v else kwGet rest f

/-- `key in dict`. -/
def dictHas (m : List (String × Val)) (k : String) : Bool :=
  match m with
  | [] => false
  | (k', _) :: rest => if k' = k then true else dictHas rest k

/-- `dict[key] = value`: replace the binding if present, append it otherwise
(Python dicts keep insertion order and append new keys at the end). -/
def dictSet (m : List (String × Val)) (k : String) (v : Val) : List (String × Val) :=
  match m with
  | [] => [(k, v)]
  | (k', v') :: rest => if k' = k then (k, v) :: rest else (k', v') :: dictSet rest k v

/-- `dict.pop(key, ...)` (the removal part). -/
def dictRemove (m : List (String × Val)) (k : String) : List (String × Val) :=
  match m with
  | [] => []
  | (k', v') :: rest => if k' = k then dictRemove rest k else (k', v') :: dictRemove rest k

/-- The error outcomes of the embedded operations.  `rcNotFound code` is
`exception.ReplicationControllerNotFound` carrying its HTTP code (404 by
default, rewritten to 400 by the setter); `clientSideError` is a wsme
`ClientSideError` raised by patch-document validation; `patchError` is
`exception.PatchError`; `httpNotFound` is `exception.HTTPNotFound`;
`operationNotPermitted` is `exception.OperationNotPermitted`. -/
inductive Err where
  | rcNotFound : Nat → Err
  | clientSideError : String → Err
  | patchError : Err
  | httpNotFound : Err
  | operationNotPermitted : Err
deriving DecidableEq, Repr

/-- Modelled from the spec: `store.get_by_uuid` (§6) — UUID lookup against the
domain store, here a list of DomainRecords. -/
def store_get_by_uuid (store : List DomainRecord) (u : String) : Option DomainRecord :=
  store.find? (fun d => d.uuid = Val.str u)

/-- Modelled from the spec: `objects.ReplicationController.get`, the store
lookup the rc_uuid setter performs (§4.2 resolves the assigned value "against
the domain store by UUID lookup"). -/
def storeGet (store : List DomainRecord) (v : Val) : Option DomainRecord :=
  store.find? (fun d => d.uuid = v)

/-- A JSON-patch operation (`add`/`replace`/`remove` addressed by field path),
the element type of a `[ReplicationControllerPatchType]` body. -/
inductive PatchOp where
  | add : String → Val → PatchOp
  | replace : String → Val → PatchOp
  | remove : String → PatchOp
deriving DecidableEq, Repr

/-- The `path` attribute of a patch operation. -/
def PatchOp.path : PatchOp → String
  | .add p _ => p
  | .replace p _ => p
  | .remove p => p

/-- The field name a (well-formed) path addresses: the path without its
leading slash. -/
def pathKey (p : String) : String := String.mk (p.data.drop 1)

/-- Modelled from the spec: well-formedness of a patch path (wsme's pattern on
`JsonPatchType.path`; §4.5 step 1 fails the operation on a malformed path).
A single-level field path: a leading slash followed by a non-empty segment. -/
def wellFormedPath (p : String) : Bool :=
  match p.data with
  | [] => false
  | c :: rest => c == '/' && !rest.isEmpty && !rest.contains '/'

/-- `ReplicationControllerPatchType.mandatory_attrs` (source lines 34-36). -/
def ReplicationControllerPatchType.mandatory_attrs : List String := ["/rc_uuid"]

/-- Modelled from the spec: validation of one patch operation
(`types.JsonPatchType.validate`, run by the `wsme.validate` decorator before
the controller body).  Per §4.5: a malformed path fails the operation (step 1)
and altering a mandatory-immutable field fails the operation (step 2); the
mandatory-immutable list is the source's `mandatory_attrs` = `['/rc_uuid']`. -/
def validateOp (op : PatchOp) : Except Err Unit :=
  if wellFormedPath op.path then
    if op.path ∈ ReplicationControllerPatchType.mandatory_attrs then
      .error (Err.clientSideError "mandatory attribute can not be altered")
    else .ok ()
  else .error (Err.clientSideError "malformed path")

/-- Validate every operation of a patch document, in order. -/
def validatePatch : List PatchOp → Except Err Unit
  | [] => .ok ()
  | op :: rest => do
      validateOp op
      validatePatch rest

/-- Apply one patch operation to a flat mapping.  `replace` and `remove` on a
non-existent path fail (a JSONPATCH exception). -/
def applyOp (m : List (String × Val)) : PatchOp → Except Err (List (String × Val))
  | .add p v => .ok (dictSet m (pathKey p) v)
  | .replace p v =>
      if dictHas m (pathKey p) then .ok (dictSet m (pathKey p) v)
      else .error Err.patchError
  | .remove p =>
      if dictHas m (pathKey p) then .ok (dictRemove m (pathKey p))
      else .error Err.patchError

/-- Modelled from the spec: `api_utils.apply_jsonpatch` (§4.5 step 1) — apply
the patch document to the flat mapping in order; any structurally invalid
operation fails the whole application, no partial result is returned. -/
def apply_jsonpatch (m : List (String × Val)) : List PatchOp → Except Err (List (String × Val))
  | [] => .ok m
  | op :: rest => do
      let m' ← applyOp m op
      apply_jsonpatch m' rest

/-- A hypermedia link.  Modelled from the spec: `link.Link` (§3, §4.3) —
`rel` is `self`/`bookmark`/`next`, `href` points at
`{base}/{collection}/{id}`, and the bookmark flag marks the stable variant. -/
structure Link where
  rel : String
  href : String
  bookmark : Bool
deriving DecidableEq, Repr

/-- Rendering of a `Val` into a URL (Python `%s` interpolation; identifiers in
links are strings in every source path). -/
def valToStr : Val → String
  | .str s => s
  | _ => ""

/-- Modelled from the spec: `link.Link.make_link` (§4.3) — given a rel, a base
URL, a collection path segment and a resource identifier, produce the link at
`{base}/{collection}/{id}`, flagged when it is the bookmark variant. -/
def Link.make_link (rel url resource : String) (resourceId : Val)
    (bookmark : Bool := false) : Link :=
  { rel := rel, href := url ++ "/" ++ resource ++ "/" ++ valToStr resourceId,
    bookmark := bookmark }

/-- The API representation of a ReplicationController (class
`ReplicationController(base.APIBase)`).  `rc_uuid` is the `_rc_uuid` backing
variable of the `rc_uuid` property; `rc_id` is the attribute created
on-the-fly by `_set_rc_uuid` (`unset` models the attribute being absent);
`fields` is the populated-field-name list maintained by `__init__`. -/
structure ReplicationController where
  uuid : Val
  name : Val
  images : Val
  bay_uuid : Val
  selector : Val
  replicas : Val
  rc_definition_url : Val
  rc_data : Val
  rc_uuid : Val
  rc_id : Val
  links : List Link
  fields : List String
deriving DecidableEq, Repr

/-- A `ReplicationController` instance before `__init__` runs: every wsme
attribute is `Unset`, the class attribute `_rc_uuid` is `None`, no links, no
fields recorded. -/
def ReplicationController.fresh : ReplicationController :=
  { uuid := Val.unset, name := Val.unset, images := Val.unset,
    bay_uuid := Val.unset, selector := Val.unset, replicas := Val.unset,
    rc_definition_url := Val.unset, rc_data := Val.unset,
    rc_uuid := Val.null, rc_id := Val.unset, links := [], fields := [] }

/-- `ReplicationController._set_rc_uuid` (source lines 52-68): on a truthy,
changed value, resolve it against the store — on success canonicalize
`_rc_uuid` to the resolved record's uuid and create `rc_id` from its id, on
`ReplicationControllerNotFound` re-raise with the code changed to 400; on the
`Unset` sentinel clear `_rc_uuid`; otherwise do nothing. -/
def ReplicationController.set_rc_uuid (store : List DomainRecord)
    (r : ReplicationController) (value : Val) : Except Err ReplicationController :=
  if truthy value ∧ r.rc_uuid ≠ value then
    match storeGet store value with
    | some rc => .ok { r with rc_uuid := rc.uuid, rc_id := Val.int rc.id }
    | none => .error (Err.rcNotFound 400)
  else if value = Val.unset then
    .ok { r with rc_uuid := Val.unset }
  else .ok r

/-- The attribute names the `ReplicationController` class exposes among the
iterated field names (`hasattr(self, field)` in `__init__`): every
DomainRecord field except the internal `id`, plus the `rc_uuid` property. -/
def exposedAttrs : List String :=
  ["uuid", "name", "images", "bay_uuid", "selector", "replicas",
   "rc_definition_url", "rc_data", "rc_uuid"]

/-- Plain `setattr` for the wsme attributes (every exposed attribute except
the `rc_uuid` property, whose setter is `_set_rc_uuid`). -/
def ReplicationController.setPlain (r : ReplicationController) (f : String)
    (v : Val) : ReplicationController :=
  match f with
  | "uuid" => { r with uuid := v }
  | "name" => { r with name := v }
  | "images" => { r with images := v }
  | "bay_uuid" => { r with bay_uuid := v }
  | "selector" => { r with selector := v }
  | "replicas" => { r with replicas := v }
  | "rc_definition_url" => { r with rc_definition_url := v }
  | "rc_data" => { r with rc_data := v }
  | "rc_id" => { r with rc_id := v }
  | _ => r

/-- `setattr(self, field, v)`: dispatches to the `rc_uuid` property setter,
plain assignment otherwise. -/
def ReplicationController.setAttr (store : List DomainRecord)
    (r : ReplicationController) (f : String) (v : Val) :
    Except Err ReplicationController :=
  if f = "rc_uuid" then r.set_rc_uuid store v else .ok (r.setPlain f v)

/-- The field loop of `__init__` (source lines 106-111): for each field name,
skip it unless exposed, otherwise record it in `fields` and assign the
kwargs value (defaulting to `Unset`). -/
def ReplicationController.initLoop (store : List DomainRecord)
    (kw : List (String × Val)) :
    List String → ReplicationController → Except Err ReplicationController
  | [], r => .ok r
  | f :: fs, r =>
      if f ∈ exposedAttrs then do
        let r := { r with fields := r.fields ++ [f] }
        let r ← r.setAttr store f (kwGet kw f)
        ReplicationController.initLoop store kw fs r
      else ReplicationController.initLoop store kw fs r

/-- `ReplicationController.__init__` (source lines 97-118): iterate the
DomainRecord field names plus `rc_uuid`, assigning exposed ones from kwargs;
then append `rc_id` to `fields` and re-assign the `rc_uuid` property from
`kwargs.get('rc_id', Unset)`. -/
def ReplicationController.init (store : List DomainRecord)
    (kw : List (String × Val)) : Except Err ReplicationController := do
  let r ← ReplicationController.initLoop store kw (objectFields ++ ["rc_uuid"])
    ReplicationController.fresh
  let r := { r with fields := r.fields ++ ["rc_id"] }
  r.set_rc_uuid store (kwGet kw "rc_id")

/-- `setattr(self, f, Unset)` as performed by `unset_fields_except`: clearing
the `rc_uuid` property runs its setter, which on `Unset` just clears
`_rc_uuid`; clearing any other attribute is a plain assignment. -/
def ReplicationController.unsetAttr (r : ReplicationController) (f : String) :
    ReplicationController :=
  if f = "rc_uuid" then { r with rc_uuid := Val.unset }
  else r.setPlain f Val.unset

/-- Modelled from the spec: `base.APIBase.unset_fields_except` (§4.1
project-to-subset) — set every populated field not in the target set to the
`Unset` sentinel. -/
def ReplicationController.unset_fields_except (r : ReplicationController)
    (ex : List String) : ReplicationController :=
  r.fields.foldl (fun acc f => if f ∈ ex then acc else acc.unsetAttr f) r

/-- `ReplicationController._convert_with_links` (source lines 120-135): on a
collapsed view unset everything outside the list subset, always strip
`rc_id`, then attach the self/bookmark links. -/
def ReplicationController.convert_links (rc : ReplicationController)
    (url : String) (expand : Bool) : ReplicationController :=
  let rc := if expand then rc
    else rc.unset_fields_except
      ["uuid", "name", "images", "bay_uuid", "selector", "replicas"]
  let rc := { rc with rc_id := Val.unset }
  { rc with links := [Link.make_link "self" url "rcs" rc.uuid,
                      Link.make_link "bookmark" url "rcs" rc.uuid true] }

/-- `ReplicationController.convert_with_links` (source lines 137-140): build
the representation from the domain record's `as_dict()` and convert it. -/
def ReplicationController.convert_with_links (store : List DomainRecord)
    (rpc_rc : DomainRecord) (host_url : String) (expand : Bool) :
    Except Err ReplicationController := do
  let rc ← ReplicationController.init store rpc_rc.as_dict
  .ok (rc.convert_links host_url expand)

/-- The representation `__init__` produces from a DomainRecord's `as_dict()`:
each exposed field carries the record's value, `rc_uuid` ends cleared to
`Unset` (the dict has no truthy `rc_uuid` and no `rc_id` entry), `rc_id` is
never created, and `fields` lists the exposed fields plus `rc_uuid`/`rc_id`. -/
def rcOfDomain (d : DomainRecord) : ReplicationController :=
  { uuid := d.uuid, name := d.name, images := d.images,
    bay_uuid := d.bay_uuid, selector := d.selector, replicas := d.replicas,
    rc_definition_url := d.rc_definition_url, rc_data := d.rc_data,
    rc_uuid := Val.unset, rc_id := Val.unset, links := [],
    fields := exposedAttrs ++ ["rc_id"] }

/-- The `next` page link of a collection, captured structurally.  Modelled
from the spec (§4.4): a link to the same resource URL carrying `marker` (the
last record's identifier), the same `sort_key`/`sort_dir` and the `limit`. -/
structure NextLink where
  url : String
  limit : Nat
  marker : Val
  sort_key : String
  sort_dir : String
deriving DecidableEq, Repr

/-- Sequential conversion of a list with exception propagation (the list
comprehension over `rpc_rcs`). -/
def mapExcept (f : α → Except Err β) : List α → Except Err (List β)
  | [] => .ok []
  | a :: as => do
      let b ← f a
      let bs ← mapExcept f as
      .ok (b :: bs)

/-- The collection representation (`ReplicationControllerCollection`, type tag
`rcs`): the converted representations plus the optional next-page link. -/
structure ReplicationControllerCollection where
  rcs : List ReplicationController
  next : Option NextLink
deriving DecidableEq, Repr

/-- Modelled from the spec: `collection.Collection.get_next` (§4.4) — if the
number of records returned equals the requested limit, build a link to the
same resource URL (defaulting to the collection's type tag `rcs`) with
`marker` set to the last record's identifier and the same
`sort_key`/`sort_dir`/`limit`; otherwise `next` is absent. -/
def ReplicationControllerCollection.get_next (rcs : List ReplicationController)
    (limit : Nat) (url : Option String) (sort_key sort_dir : String) :
    Option NextLink :=
  if rcs.length = limit then
    some { url := url.getD "rcs", limit := limit,
           marker := (rcs.getLast?).elim Val.unset ReplicationController.uuid,
           sort_key := sort_key, sort_dir := sort_dir }
  else none

/-- `ReplicationControllerCollection.convert_with_links` (source lines
167-173): convert each record, then compute the next-page link. -/
def ReplicationControllerCollection.convert_with_links
    (store : List DomainRecord) (rpc_rcs : List DomainRecord) (limit : Nat)
    (url : Option String) (expand : Bool) (sort_key sort_dir : String)
    (host_url : String) : Except Err ReplicationControllerCollection := do
  let rcs ← mapExcept
    (fun p => ReplicationController.convert_with_links store p host_url expand)
    rpc_rcs
  .ok { rcs := rcs,
        next := ReplicationControllerCollection.get_next rcs limit url
          sort_key sort_dir }

/-- Insertion step of the id-ascending sort. -/
def insertById (d : DomainRecord) : List DomainRecord → List DomainRecord
  | [] => [d]
  | e :: es => if d.id ≤ e.id then d :: e :: es else e :: insertById d es

/-- Sort records by `id` ascending (insertion sort). -/
def sortById (l : List DomainRecord) : List DomainRecord :=
  l.foldr insertById []

/-- Modelled from the spec: `store.list(limit, marker, sort_key, sort_dir)`
(§6) — the records ordered by the sort key, starting after the marker record,
at most `limit` of them.  Only the `id` sort key orders; `desc` reverses. -/
def storeList (store : List DomainRecord) (limit : Nat)
    (marker : Option DomainRecord) (sort_key sort_dir : String) :
    List DomainRecord :=
  let s := if sort_key = "id" then sortById store else store
  let s := if sort_dir = "desc" then s.reverse else s
  let s := match marker with
    | none => s
    | some m => (s.dropWhile (fun d : DomainRecord => d.id != m.id)).drop 1
  s.take limit

/-- Modelled from the spec: `api_utils.validate_limit` (§7: an invalid limit
is a ValidationError) — the limit must be positive. -/
def validate_limit (limit : Nat) : Except Err Nat :=
  if 0 < limit then .ok limit
  else .error (Err.clientSideError "invalid limit")

/-- Modelled from the spec: `api_utils.validate_sort_dir` (§6: the direction
must be one of `asc`/`desc`; §7: otherwise a ValidationError). -/
def validate_sort_dir (sort_dir : String) : Except Err String :=
  if sort_dir = "asc" ∨ sort_dir = "desc" then .ok sort_dir
  else .error (Err.clientSideError "invalid sort direction")

/-- `ReplicationControllersController._get_rcs_collection` (source lines
196-217): validate the parameters, resolve the marker (a failed marker lookup
raises `ReplicationControllerNotFound`, code 404), list the records and
assemble the collection. -/
def ReplicationControllersController.get_rcs_collection
    (store : List DomainRecord) (marker : Option String) (limit : Nat)
    (sort_key sort_dir : String) (expand : Bool) (resource_url : Option String)
    (host_url : String) : Except Err ReplicationControllerCollection := do
  let limit ← validate_limit limit
  let sort_dir ← validate_sort_dir sort_dir
  let marker_obj ← match marker with
    | none => .ok none
    | some m =>
        match store_get_by_uuid store m with
        | some d => .ok (some d)
        | none => .error (Err.rcNotFound 404)
  let rcs := storeList store limit marker_obj sort_key sort_dir
  ReplicationControllerCollection.convert_with_links store rcs limit
    resource_url expand sort_key sort_dir host_url

/-- `pecan.request.path.split('/')`. -/
def splitSlashAux : List Char → List Char → List String
  | [], acc => [String.mk acc.reverse]
  | c :: cs, acc =>
      if c = '/' then String.mk acc.reverse :: splitSlashAux cs []
      else splitSlashAux cs (c :: acc)

/-- Split a request path on `/`. -/
def splitSlash (s : String) : List String := splitSlashAux s.data []

/-- The path segment before the last one: `path.split('/')[:-1][-1]`
(defaulting to `""` on too-short paths, where the source would error out). -/
def parentSegment (path : String) : String :=
  ((splitSlash path).dropLast).getLastD ""

/-- `ReplicationControllersController.detail` (source lines 235-255): reject
the request with `exception.HTTPNotFound` unless the segment before `detail`
is `rcs`; otherwise serve the expanded collection at `rcs/detail`. -/
def ReplicationControllersController.detail (store : List DomainRecord)
    (path : String) (marker : Option String) (limit : Nat)
    (sort_key sort_dir : String) (host_url : String) :
    Except Err ReplicationControllerCollection :=
  if parentSegment path ≠ "rcs" then .error Err.httpNotFound
  else
    ReplicationControllersController.get_rcs_collection store marker limit
      sort_key sort_dir true (some "rcs/detail") host_url

/-- `patch_val == wtypes.Unset → patch_val = None` (source lines 326-327). -/
def unsetToNull (v : Val) : Val := if v = Val.unset then Val.null else v

/-- Read a DomainRecord field by name (`rpc_rc[field]`); only called on names
the merge loop reaches with an exposed representation attribute. -/
def DomainRecord.getField (d : DomainRecord) : String → Val
  | "uuid" => d.uuid
  | "name" => d.name
  | "images" => d.images
  | "bay_uuid" => d.bay_uuid
  | "selector" => d.selector
  | "replicas" => d.replicas
  | "rc_definition_url" => d.rc_definition_url
  | "rc_data" => d.rc_data
  | _ => Val.null

/-- Write a DomainRecord field by name (`rpc_rc[field] = patch_val`). -/
def DomainRecord.setField (d : DomainRecord) (f : String) (v : Val) :
    DomainRecord :=
  match f with
  | "uuid" => { d with uuid := v }
  | "name" => { d with name := v }
  | "images" => { d with images := v }
  | "bay_uuid" => { d with bay_uuid := v }
  | "selector" => { d with selector := v }
  | "replicas" => { d with replicas := v }
  | "rc_definition_url" => { d with rc_definition_url := v }
  | "rc_data" => { d with rc_data := v }
  | _ => d

/-- `getattr(rc, field)` for the merge loop: `none` models the
`AttributeError` on field names the API does not expose (only `id` among the
iterated names). -/
def ReplicationController.getAttr (rc : ReplicationController) :
    String → Option Val
  | "uuid" => some rc.uuid
  | "name" => some rc.name
  | "images" => some rc.images
  | "bay_uuid" => some rc.bay_uuid
  | "selector" => some rc.selector
  | "replicas" => some rc.replicas
  | "rc_definition_url" => some rc.rc_definition_url
  | "rc_data" => some rc.rc_data
  | "rc_uuid" => some rc.rc_uuid
  | _ => none

/-- One iteration of the patch merge loop (source lines 314-329): skip the
create-only `rc_definition_url`/`rc_data`, skip fields the API does not
expose, normalize `Unset` to `None`, write the candidate value when it
differs from the current one. -/
def mergeField (d : DomainRecord) (rc : ReplicationController) (f : String) :
    DomainRecord :=
  if f = "rc_definition_url" ∨ f = "rc_data" then d
  else
    match rc.getAttr f with
    | none => d
    | some pv =>
        let pv := unsetToNull pv
        if d.getField f ≠ pv then d.setField f pv else d

/-- The whole patch merge loop over `objects.ReplicationController.fields`. -/
def mergeFields (d : DomainRecord) (rc : ReplicationController) : DomainRecord :=
  objectFields.foldl (fun d f => mergeField d rc f) d

/-- Modelled from the spec: `rpc_rc.save()` (§6 `store.save`) — persist the
mutated record into the store slot holding its surrogate id. -/
def storeSave (store : List DomainRecord) (d : DomainRecord) :
    List DomainRecord :=
  store.map (fun e => if e.id = d.id then d else e)

/-- The flat mapping fed to `apply_jsonpatch` by the patch endpoint (source
lines 302-307): the addressed record's `as_dict()` with `rc_id` popped
(defaulting to `None`) and re-inserted under the `rc_uuid` key. -/
def patchDict (rpc_rc : DomainRecord) : List (String × Val) :=
  dictSet (dictRemove rpc_rc.as_dict "rc_id") "rc_uuid"
    (if dictHas rpc_rc.as_dict "rc_id" then kwGet rpc_rc.as_dict "rc_id"
     else Val.null)

/-- `ReplicationControllersController.patch` (source lines 287-332), as the
function from (store, host URL, addressed uuid, patch document) to (outcome,
store after the request, number of `save` calls).  The patch document is
validated by the `wsme.validate` decorator first; then the addressed record is
fetched (`ReplicationControllerNotFound`, 404, if absent); its `as_dict` gets
`rc_id` popped into `rc_uuid` (`patchDict`); the document is applied
(JSONPATCH failures re-raised as `PatchError`); the candidate representation
is constructed (a failed `rc_uuid` resolution propagates with code 400,
uncaught by the JSONPATCH handler); the merge loop stages the field
mutations; the record is saved and converted back. -/
def ReplicationControllersController.patch (store : List DomainRecord)
    (host_url : String) (rc_uuid : String) (doc : List PatchOp) :
    Except Err ReplicationController × List DomainRecord × Nat :=
  match validatePatch doc with
  | .error e => (.error e, store, 0)
  | .ok _ =>
    match store_get_by_uuid store rc_uuid with
    | none => (.error (Err.rcNotFound 404), store, 0)
    | some rpc_rc =>
      match apply_jsonpatch (patchDict rpc_rc) doc with
      | .error _ => (.error Err.patchError, store, 0)
      | .ok candidate =>
        match ReplicationController.init store candidate with
        | .error e => (.error e, store, 0)
        | .ok rc =>
          match ReplicationController.convert_with_links
              (storeSave store (mergeFields rpc_rc rc))
              (mergeFields rpc_rc rc) host_url true with
          | .ok rep => (.ok rep, storeSave store (mergeFields rpc_rc rc), 1)
          | .error e => (.error e, storeSave store (mergeFields rpc_rc rc), 1)

/-- A concrete stored record used by the witnesses and counterexamples. -/
def demoRecord : DomainRecord :=
  { id := 1, uuid := Val.str "u1", name := Val.str "rc1",
    images := Val.list ["img"], bay_uuid := Val.str "bay1",
    selector := Val.vmap [("app", "web")], replicas := Val.int 2,
    rc_definition_url := Val.str "http://defs/rc1", rc_data := Val.str "data1" }

/-- A one-record store used by the witnesses and counterexamples. -/
def demoStore : List DomainRecord := [demoRecord]

/-- A second concrete record (id 2, uuid `u2`). -/
def demoRecord2 : DomainRecord := { demoRecord with id := 2, uuid := Val.str "u2" }

/-- A third concrete record (id 3, uuid `u3`). -/
def demoRecord3 : DomainRecord := { demoRecord with id := 3, uuid := Val.str "u3" }

/-- A two-record store (pagination scenarios). -/
def demoStore2 : List DomainRecord := [demoRecord, demoRecord2]

/-- A three-record store (pagination scenarios). -/
def demoStore3 : List DomainRecord := [demoRecord, demoRecord2, demoRecord3]

/-- The page `store.list` returns for the three-record store with limit 2,
sorted by id ascending. -/
def demoListed : List DomainRecord := storeList demoStore3 2 none "id" "asc"

/-- The collection assembled from that page (collapsed view, limit 2). -/
def demoCollection : ReplicationControllerCollection :=
  (ReplicationControllerCollection.convert_with_links demoStore3 demoListed 2
    none false "id" "asc" "http://h").toOption.getD ⟨[], none⟩

/-- A placeholder next-link used only to extract the computed one. -/
def blankNext : NextLink :=
  { url := "", limit := 0, marker := Val.unset, sort_key := "", sort_dir := "" }

/-- The outcome of patching `u1` with a document replacing only `/name`. -/
def demoNamePatch : Except Err ReplicationController × List DomainRecord × Nat :=
  ReplicationControllersController.patch demoStore "http://h" "u1"
    [PatchOp.replace "/name" (Val.str "n2")]

/-- The outcome of patching `u1` with a document touching the create-only
`rc_data` together with `/name`. -/
def demoDataPatch : Except Err ReplicationController × List DomainRecord × Nat :=
  ReplicationControllersController.patch demoStore "http://h" "u1"
    [PatchOp.replace "/rc_data" (Val.str "xx"), PatchOp.replace "/name" (Val.str "n3")]

/-- The representation built from the mapping `{name: "x"}` over an empty
store. -/
def demoInitRep : ReplicationController :=
  (ReplicationController.init ([] : List DomainRecord)
    [("name", Val.str "x")]).toOption.getD ReplicationController.fresh

/-- The representation state after the plain-field part of `__init__` on a
mapping `kw`: every exposed wsme attribute holds its kwargs value, `_rc_uuid`
still holds its class default `None`, and `fields` lists the exposed names. -/
def baseOfKw (kw : List (String × Val)) : ReplicationController :=
  { uuid := kwGet kw "uuid", name := kwGet kw "name",
    images := kwGet kw "images", bay_uuid := kwGet kw "bay_uuid",
    selector := kwGet kw "selector", replicas := kwGet kw "replicas",
    rc_definition_url := kwGet kw "rc_definition_url",
    rc_data := kwGet kw "rc_data", rc_uuid := Val.null, rc_id := Val.unset,
    links := [], fields := exposedAttrs }

theorem initLoop_unfold (store : List DomainRecord) (kw : List (String × Val)) :
    ReplicationController.initLoop store kw (objectFields ++ ["rc_uuid"])
      ReplicationController.fresh =
    (ReplicationController.set_rc_uuid store (baseOfKw kw)
      (kwGet kw "rc_uuid")).bind (fun r => .ok r) := rfl

theorem init_unfold (store : List DomainRecord) (kw : List (String × Val)) :
    ReplicationController.init store kw =
    (ReplicationController.set_rc_uuid store (baseOfKw kw)
      (kwGet kw "rc_uuid")).bind
      (fun r =>
        ReplicationController.set_rc_uuid store
          { r with fields := r.fields ++ ["rc_id"] } (kwGet kw "rc_id")) := by
  unfold ReplicationController.init
  rw [initLoop_unfold]
  rcases ReplicationController.set_rc_uuid store (baseOfKw kw)
    (kwGet kw "rc_uuid") with e | r <;> rfl

theorem set_rc_uuid_unset (store : List DomainRecord)
    (r : ReplicationController) :
    ReplicationController.set_rc_uuid store r Val.unset =
    .ok { r with rc_uuid := Val.unset } := rfl

theorem set_rc_uuid_frame (store : List DomainRecord)
    (r r' : ReplicationController) (v : Val)
    (h : ReplicationController.set_rc_uuid store r v = .ok r') :
    r'.uuid = r.uuid ∧ r'.name = r.name ∧ r'.images = r.images ∧
    r'.bay_uuid = r.bay_uuid ∧ r'.selector = r.selector ∧
    r'.replicas = r.replicas ∧ r'.rc_definition_url = r.rc_definition_url ∧
    r'.rc_data = r.rc_data ∧ r'.links = r.links ∧ r'.fields = r.fields := by
  unfold ReplicationController.set_rc_uuid at h
  split at h
  · rcases hG : storeGet store v with _ | rc <;> rw [hG] at h
    · exact absurd h (by simp)
    · cases h; simp
  · split at h <;> cases h <;> simp

theorem init_ok_char (store : List DomainRecord) (kw : List (String × Val))
    (rc : ReplicationController)
    (h : ReplicationController.init store kw = .ok rc) :
    rc.uuid = kwGet kw "uuid" ∧ rc.name = kwGet kw "name" ∧
    rc.images = kwGet kw "images" ∧ rc.bay_uuid = kwGet kw "bay_uuid" ∧
    rc.selector = kwGet kw "selector" ∧ rc.replicas = kwGet kw "replicas" ∧
    rc.rc_definition_url = kwGet kw "rc_definition_url" ∧
    rc.rc_data = kwGet kw "rc_data" ∧
    rc.fields = exposedAttrs ++ ["rc_id"] ∧
    (kwGet kw "rc_id" = Val.unset → rc.rc_uuid = Val.unset) := by
  rw [init_unfold] at h
  rcases hX : ReplicationController.set_rc_uuid store (baseOfKw kw)
      (kwGet kw "rc_uuid") with e | r <;> rw [hX] at h
  · exact absurd h (by simp [Except.bind])
  · simp only [Except.bind] at h
    obtain ⟨h1u, h1n, h1i, h1b, h1s, h1r, h1d, h1t, h1l, h1f⟩ :=
      set_rc_uuid_frame store _ _ _ hX
    obtain ⟨h2u, h2n, h2i, h2b, h2s, h2r, h2d, h2t, h2l, h2f⟩ :=
      set_rc_uuid_frame store _ _ _ h
    refine ⟨?_, ?_, ?_, ?_, ?_, ?_, ?_, ?_, ?_, ?_⟩
    · rw [h2u]; show r.uuid = _; rw [h1u]; rfl
    · rw [h2n]; show r.name = _; rw [h1n]; rfl
    · rw [h2i]; show r.images = _; rw [h1i]; rfl
    · rw [h2b]; show r.bay_uuid = _; rw [h1b]; rfl
    · rw [h2s]; show r.selector = _; rw [h1s]; rfl
    · rw [h2r]; show r.replicas = _; rw [h1r]; rfl
    · rw [h2d]; show r.rc_definition_url = _; rw [h1d]; rfl
    · rw [h2t]; show r.rc_data = _; rw [h1t]; rfl
    · rw [h2f]; show r.fields ++ ["rc_id"] = _; rw [h1f]; rfl
    · intro hU
      rw [hU, set_rc_uuid_unset] at h
      cases h
      rfl

theorem mergeField_id (d : DomainRecord) (rc : ReplicationController) :
    mergeField d rc "id" = d := rfl

theorem mergeField_defn (d : DomainRecord) (rc : ReplicationController) :
    mergeField d rc "rc_definition_url" = d := rfl

theorem mergeField_data (d : DomainRecord) (rc : ReplicationController) :
    mergeField d rc "rc_data" = d := rfl

theorem mergeField_uuid (d : DomainRecord) (rc : ReplicationController) :
    mergeField d rc "uuid" = { d with uuid := unsetToNull rc.uuid } := by
  rcases d with ⟨i, u, n, im, b, s, rep, du, dd⟩
  by_cases h : u = unsetToNull rc.uuid <;>
    simp [mergeField, ReplicationController.getAttr, DomainRecord.getField,
      DomainRecord.setField, h]

theorem mergeField_name (d : DomainRecord) (rc : ReplicationController) :
    mergeField d rc "name" = { d with name := unsetToNull rc.name } := by
  rcases d with ⟨i, u, n, im, b, s, rep, du, dd⟩
  by_cases h : n = unsetToNull rc.name <;>
    simp [mergeField, ReplicationController.getAttr, DomainRecord.getField,
      DomainRecord.setField, h]

theorem mergeField_images (d : DomainRecord) (rc : ReplicationController) :
    mergeField d rc "images" = { d with images := unsetToNull rc.images } := by
  rcases d with ⟨i, u, n, im, b, s, rep, du, dd⟩
  by_cases h : im = unsetToNull rc.images <;>
    simp [mergeField, ReplicationController.getAttr, DomainRecord.getField,
      DomainRecord.setField, h]

theorem mergeField_bay (d : DomainRecord) (rc : ReplicationController) :
    mergeField d rc "bay_uuid" = { d with bay_uuid := unsetToNull rc.bay_uuid } := by
  rcases d with ⟨i, u, n, im, b, s, rep, du, dd⟩
  by_cases h : b = unsetToNull rc.bay_uuid <;>
    simp [mergeField, ReplicationController.getAttr, DomainRecord.getField,
      DomainRecord.setField, h]

theorem mergeField_selector (d : DomainRecord) (rc : ReplicationController) :
    mergeField d rc "selector" = { d with selector := unsetToNull rc.selector } := by
  rcases d with ⟨i, u, n, im, b, s, rep, du, dd⟩
  by_cases h : s = unsetToNull rc.selector <;>
    simp [mergeField, ReplicationController.getAttr, DomainRecord.getField,
      DomainRecord.setField, h]

theorem mergeField_replicas (d : DomainRecord) (rc : ReplicationController) :
    mergeField d rc "replicas" = { d with replicas := unsetToNull rc.replicas } := by
  rcases d with ⟨i, u, n, im, b, s, rep, du, dd⟩
  by_cases h : rep = unsetToNull rc.replicas <;>
    simp [mergeField, ReplicationController.getAttr, DomainRecord.getField,
      DomainRecord.setField, h]

theorem mergeFields_eq (d : DomainRecord) (rc : ReplicationController) :
    mergeFields d rc =
    { d with uuid := unsetToNull rc.uuid, name := unsetToNull rc.name,
             images := unsetToNull rc.images,
             bay_uuid := unsetToNull rc.bay_uuid,
             selector := unsetToNull rc.selector,
             replicas := unsetToNull rc.replicas } := by
  show List.foldl (fun d f => mergeField d rc f) d objectFields = _
  simp only [objectFields, List.foldl]
  rw [mergeField_id, mergeField_uuid, mergeField_name, mergeField_images,
    mergeField_bay, mergeField_selector, mergeField_replicas,
    mergeField_defn, mergeField_data]

theorem kwGet_dictSet_ne (m : List (String × Val)) (k k' : String) (v : Val)
    (h : k ≠ k') : kwGet (dictSet m k v) k' = kwGet m k' := by
  induction m with
  | nil => simp [dictSet, kwGet, h]
  | cons kv rest ih =>
      obtain ⟨k0, v0⟩ := kv
      by_cases h0 : k0 = k
      · subst h0
        have e1 : dictSet ((k0, v0) :: rest) k0 v = (k0, v) :: rest := by
          simp [dictSet]
        rw [e1]
        simp [kwGet, h]
      · have e1 : dictSet ((k0, v0) :: rest) k v = (k0, v0) :: dictSet rest k v := by
          simp [dictSet, h0]
        rw [e1]
        by_cases h1 : k0 = k' <;> simp [kwGet, h1, ih]

theorem kwGet_dictRemove_ne (m : List (String × Val)) (k k' : String)
    (h : k ≠ k') : kwGet (dictRemove m k) k' = kwGet m k' := by
  induction m with
  | nil => rfl
  | cons kv rest ih =>
      obtain ⟨k0, v0⟩ := kv
      by_cases h0 : k0 = k
      · subst h0
        have e1 : dictRemove ((k0, v0) :: rest) k0 = dictRemove rest k0 := by
          simp [dictRemove]
        have e2 : kwGet ((k0, v0) :: rest) k' = kwGet rest k' := by
          simp [kwGet, h]
        rw [e1, e2, ih]
      · have e1 : dictRemove ((k0, v0) :: rest) k = (k0, v0) :: dictRemove rest k := by
          simp [dictRemove, h0]
        rw [e1]
        by_cases h1 : k0 = k' <;> simp [kwGet, h1, ih]

theorem applyOp_preserves_key (m m' : List (String × Val)) (op : PatchOp)
    (k : String) (hk : pathKey op.path ≠ k) (h : applyOp m op = .ok m') :
    kwGet m' k = kwGet m k := by
  cases op with
  | add p v =>
      simp only [applyOp] at h
      cases h
      exact kwGet_dictSet_ne m _ k v hk
  | replace p v =>
      simp only [applyOp] at h
      split at h
      · cases h
        exact kwGet_dictSet_ne m _ k v hk
      · cases h
  | remove p =>
      simp only [applyOp] at h
      split at h
      · cases h
        exact kwGet_dictRemove_ne m _ k hk
      · cases h

theorem apply_jsonpatch_cons_err (m : List (String × Val)) (op : PatchOp)
    (rest : List PatchOp) (e : Err) (h : applyOp m op = .error e) :
    apply_jsonpatch m (op :: rest) = .error e := by
  unfold apply_jsonpatch
  rw [h]
  rfl

theorem apply_jsonpatch_cons_ok (m : List (String × Val)) (op : PatchOp)
    (rest : List PatchOp) (m1 : List (String × Val))
    (h : applyOp m op = .ok m1) :
    apply_jsonpatch m (op :: rest) = apply_jsonpatch m1 rest := by
  conv_lhs => unfold apply_jsonpatch
  rw [h]
  rfl

theorem apply_jsonpatch_preserves_key (doc : List PatchOp) :
    ∀ (m m' : List (String × Val)) (k : String),
    (∀ op ∈ doc, pathKey op.path ≠ k) →
    apply_jsonpatch m doc = .ok m' → kwGet m' k = kwGet m k := by
  induction doc with
  | nil =>
      intro m m' k _ h
      cases h
      rfl
  | cons op rest ih =>
      intro m m' k hk h
      rcases hop : applyOp m op with e | m1
      · rw [apply_jsonpatch_cons_err m op rest e hop] at h
        cases h
      · rw [apply_jsonpatch_cons_ok m op rest m1 hop] at h
        have h1 := applyOp_preserves_key m m1 op k (hk op (by simp)) hop
        have h2 := ih m1 m' k (fun o ho => hk o (by simp [ho])) h
        rw [h2, h1]

theorem validatePatch_cons_err (op : PatchOp) (rest : List PatchOp) (e : Err)
    (h : validateOp op = .error e) :
    validatePatch (op :: rest) = .error e := by
  unfold validatePatch
  rw [h]
  rfl

theorem validatePatch_cons_ok (op : PatchOp) (rest : List PatchOp) (u : Unit)
    (h : validateOp op = .ok u) :
    validatePatch (op :: rest) = validatePatch rest := by
  conv_lhs => unfold validatePatch
  rw [h]
  rfl

theorem validatePatch_error_of_mandatory (doc : List PatchOp) (op : PatchOp)
    (hm : op ∈ doc)
    (hp : op.path ∈ ReplicationControllerPatchType.mandatory_attrs) :
    ∃ e, validatePatch doc = .error e := by
  induction doc with
  | nil => cases hm
  | cons op0 rest ih =>
      rcases hv : validateOp op0 with e | u
      · exact ⟨e, validatePatch_cons_err op0 rest e hv⟩
      · rcases List.mem_cons.mp hm with h0 | h0
        · subst h0
          unfold validateOp at hv
          split at hv
          all_goals cases hv
        · obtain ⟨e, he⟩ := ih h0
          exact ⟨e, by rw [validatePatch_cons_ok op0 rest u hv]; exact he⟩

theorem mem_storeSave_id (store : List DomainRecord) (d d' : DomainRecord)
    (hm : d' ∈ storeSave store d) (hid : d'.id = d.id) : d' = d := by
  unfold storeSave at hm
  obtain ⟨e, _, he⟩ := List.mem_map.mp hm
  by_cases h : e.id = d.id
  · rw [if_pos h] at he
    exact he.symm
  · rw [if_neg h] at he
    rw [he] at h
    exact absurd hid h

theorem convert_one_eq (store : List DomainRecord) (p : DomainRecord)
    (host_url : String) (expand : Bool) :
    ReplicationController.convert_with_links store p host_url expand =
    .ok ((rcOfDomain p).convert_links host_url expand) := rfl

theorem mapExcept_ok (f : α → Except Err β) (g : α → β)
    (hf : ∀ a, f a = .ok (g a)) (l : List α) :
    mapExcept f l = .ok (l.map g) := by
  induction l with
  | nil => rfl
  | cons a as ih =>
      unfold mapExcept
      rw [hf a, ih]
      rfl

theorem convert_links_domain_uuid (p : DomainRecord) (url : String)
    (expand : Bool) :
    ((rcOfDomain p).convert_links url expand).uuid = p.uuid := by
  cases expand <;> rfl

theorem collection_convert_eq (store rpc_rcs : List DomainRecord) (limit : Nat)
    (url : Option String) (expand : Bool) (sk sd host : String) :
    ReplicationControllerCollection.convert_with_links store rpc_rcs limit url
      expand sk sd host =
    .ok { rcs := rpc_rcs.map (fun p => (rcOfDomain p).convert_links host expand),
          next := ReplicationControllerCollection.get_next
            (rpc_rcs.map (fun p => (rcOfDomain p).convert_links host expand))
            limit url sk sd } := by
  unfold ReplicationControllerCollection.convert_with_links
  rw [mapExcept_ok _ (fun p => (rcOfDomain p).convert_links host expand)
    (fun p => convert_one_eq store p host expand) rpc_rcs]
  rfl

theorem patchDict_uuid (d : DomainRecord) :
    kwGet (patchDict d) "uuid" = d.uuid := by
  unfold patchDict
  rw [kwGet_dictSet_ne _ _ _ _ (by decide),
    kwGet_dictRemove_ne _ _ _ (by decide)]
  rfl

theorem patch_ok_dissect (store : List DomainRecord) (host u : String)
    (doc : List PatchOp) (rep : ReplicationController)
    (store' : List DomainRecord) (n : Nat)
    (hp : ReplicationControllersController.patch store host u doc =
      (.ok rep, store', n)) :
    ∃ d cand rc, store_get_by_uuid store u = some d ∧
      apply_jsonpatch (patchDict d) doc = .ok cand ∧
      ReplicationController.init store cand = .ok rc ∧
      store' = storeSave store (mergeFields d rc) := by
  rcases hv : validatePatch doc with e1 | u1
  · have he : ReplicationControllersController.patch store host u doc =
        (.error e1, store, 0) := by
      unfold ReplicationControllersController.patch
      simp only [hv]
    rw [he] at hp
    simp at hp
  rcases hg : store_get_by_uuid store u with _ | d
  · have he : ReplicationControllersController.patch store host u doc =
        (.error (Err.rcNotFound 404), store, 0) := by
      unfold ReplicationControllersController.patch
      simp only [hv, hg]
    rw [he] at hp
    simp at hp
  rcases ha : apply_jsonpatch (patchDict d) doc with e2 | cand
  · have he : ReplicationControllersController.patch store host u doc =
        (.error Err.patchError, store, 0) := by
      unfold ReplicationControllersController.patch
      simp only [hv, hg, ha]
    rw [he] at hp
    simp at hp
  rcases hi : ReplicationController.init store cand with e3 | rc
  · have he : ReplicationControllersController.patch store host u doc =
        (.error e3, store, 0) := by
      unfold ReplicationControllersController.patch
      simp only [hv, hg, ha, hi]
    rw [he] at hp
    simp at hp
  have he : ReplicationControllersController.patch store host u doc =
      (.ok ((rcOfDomain (mergeFields d rc)).convert_links host true),
        storeSave store (mergeFields d rc), 1) := by
    unfold ReplicationControllersController.patch
    simp only [hv, hg, ha, hi, convert_one_eq]
  rw [he] at hp
  refine ⟨d, cand, rc, rfl, ha, hi, ?_⟩
  have h21 := congrArg (fun t : Except Err ReplicationController ×
    List DomainRecord × Nat => t.2.1) hp
  exact h21.symm

/-- C2: assigning the `rc_uuid` alias a truthy (non-empty) value different
from the stored one resolves it against the store; on success the stored
value is canonicalized to the resolved record's uuid and `rc_id` is populated
from the resolved record's id; on a failed lookup the not-found error is
re-raised with HTTP code 400 (client input validation), never 404. -/
theorem c2_rc_uuid_resolution (store : List DomainRecord)
    (r : ReplicationController) (v : Val) (h1 : truthy v = true)
    (h2 : r.rc_uuid ≠ v) :
    (∀ rec, storeGet store v = some rec →
      r.set_rc_uuid store v =
        .ok { r with rc_uuid := rec.uuid, rc_id := Val.int rec.id }) ∧
    (storeGet store v = none →
      r.set_rc_uuid store v = .error (Err.rcNotFound 400) ∧
      Err.rcNotFound 400 ≠ Err.rcNotFound 404) := by
  constructor
  · intro rec hrec
    unfold ReplicationController.set_rc_uuid
    rw [if_pos ⟨h1, h2⟩, hrec]
  · intro hrec
    refine ⟨?_, by simp⟩
    unfold ReplicationController.set_rc_uuid
    rw [if_pos ⟨h1, h2⟩, hrec]

/-- C2 witness: resolving `u1` against the demo store canonicalizes the
value and creates `rc_id = 1`; resolving `zz` against an empty store fails
with code 400. -/
theorem c2_witness :
    ReplicationController.fresh.set_rc_uuid demoStore (Val.str "u1") =
      .ok { ReplicationController.fresh with
            rc_uuid := Val.str "u1", rc_id := Val.int 1 } ∧
    ReplicationController.fresh.set_rc_uuid [] (Val.str "zz") =
      .error (Err.rcNotFound 400) := by
  have hA := c2_rc_uuid_resolution demoStore ReplicationController.fresh
    (Val.str "u1") (by decide) (by decide)
  have hB := c2_rc_uuid_resolution [] ReplicationController.fresh
    (Val.str "zz") (by decide) (by decide)
  exact ⟨hA.1 demoRecord rfl, (hB.2 rfl).1⟩

/-- C10: assigning the `rc_uuid` alias a falsy value that is not the unset
sentinel (None, `""`, 0, ...) performs no store lookup and leaves the
representation unchanged; assigning the unset sentinel clears the field; a
truthy value equal to the stored one is also a no-op. -/
theorem c10_falsy_assignment_noop (store : List DomainRecord)
    (r : ReplicationController) (v : Val) (h1 : truthy v = false)
    (h2 : v ≠ Val.unset) :
    r.set_rc_uuid store v = .ok r ∧
    r.set_rc_uuid store Val.unset = .ok { r with rc_uuid := Val.unset } ∧
    (∀ w, truthy w = true → r.rc_uuid = w → r.set_rc_uuid store w = .ok r) := by
  refine ⟨?_, set_rc_uuid_unset store r, ?_⟩
  · unfold ReplicationController.set_rc_uuid
    rw [if_neg (by rintro ⟨ha, _⟩; rw [h1] at ha; cases ha), if_neg h2]
  · intro w hw hrw
    unfold ReplicationController.set_rc_uuid
    have hcond : ¬ (truthy w ∧ r.rc_uuid ≠ w) := by
      rintro ⟨_, hne⟩
      exact hne hrw
    have hne : w ≠ Val.unset := by
      intro hc
      rw [hc] at hw
      exact absurd hw (by decide)
    rw [if_neg hcond, if_neg hne]

/-- C10 witness: assigning `None` to a populated representation is a no-op. -/
theorem c10_witness :
    (rcOfDomain demoRecord).set_rc_uuid [] Val.null =
      .ok (rcOfDomain demoRecord) :=
  (c10_falsy_assignment_noop [] (rcOfDomain demoRecord) Val.null (by decide)
    (by decide)).1

/-- C6: `_convert_with_links` strips the internal surrogate `rc_id` (sets it
to the unset sentinel) on every conversion, expanded or collapsed, so no
representation leaving the conversion step carries it. -/
theorem c6_rc_id_stripped (rc : ReplicationController) (url : String)
    (expand : Bool) :
    (rc.convert_links url expand).rc_id = Val.unset := rfl

/-- C7: converting with the collapsed (expand=false) view a representation
whose `fields` list is the one `__init__` produces discards every populated
field outside `{uuid, name, images, bay_uuid, selector, replicas, links}`:
`rc_definition_url`, `rc_data`, `rc_uuid` and `rc_id` are all unset in the
result, and those are the only representation fields outside that set. -/
theorem c7_collapsed_view (rc : ReplicationController) (url : String)
    (h : rc.fields = exposedAttrs ++ ["rc_id"]) :
    (rc.convert_links url false).rc_definition_url = Val.unset ∧
    (rc.convert_links url false).rc_data = Val.unset ∧
    (rc.convert_links url false).rc_uuid = Val.unset ∧
    (rc.convert_links url false).rc_id = Val.unset := by
  rcases rc with ⟨u, n, im, b, s, rep, du, dd, ru, rid, lks, fs⟩
  simp only at h
  subst h
  exact ⟨rfl, rfl, rfl, rfl⟩

/-- C7 witness: the collapsed conversion of the demo record's representation
has all four non-collapsed fields unset. -/
theorem c7_witness :
    ((rcOfDomain demoRecord).convert_links "http://h" false).rc_definition_url
      = Val.unset ∧
    ((rcOfDomain demoRecord).convert_links "http://h" false).rc_data
      = Val.unset ∧
    ((rcOfDomain demoRecord).convert_links "http://h" false).rc_uuid
      = Val.unset ∧
    ((rcOfDomain demoRecord).convert_links "http://h" false).rc_id
      = Val.unset :=
  c7_collapsed_view (rcOfDomain demoRecord) "http://h" rfl

/-- C9 counterexample: a nested detail request (`/rcs/u1/detail`, parent
segment `u1`) is rejected, but with `exception.HTTPNotFound`, which is a
different error from `exception.OperationNotPermitted` — the claim names the
wrong error. -/
theorem c9_counterexample :
    ReplicationControllersController.detail demoStore "/rcs/u1/detail" none 1
      "id" "asc" "http://h" = .error Err.httpNotFound ∧
    Err.httpNotFound ≠ Err.operationNotPermitted := ⟨rfl, by decide⟩

/-- C9 (amended): every detail request whose path segment before `detail` is
not `rcs` is rejected — with `exception.HTTPNotFound` (the code raises
HTTPNotFound here, not OperationNotPermitted) — rather than being served. -/
theorem c9_nested_detail_rejected_amended (store : List DomainRecord)
    (path : String) (marker : Option String) (limit : Nat)
    (sk sd host : String) (h : parentSegment path ≠ "rcs") :
    ReplicationControllersController.detail store path marker limit sk sd host
      = .error Err.httpNotFound := by
  unfold ReplicationControllersController.detail
  rw [if_pos h]

/-- C9 witness: the nested path `/rcs/u1/detail` is rejected with
HTTPNotFound. -/
theorem c9_witness :
    ReplicationControllersController.detail demoStore "/rcs/u1/detail" none 1
      "id" "asc" "http://h" = .error Err.httpNotFound :=
  c9_nested_detail_rejected_amended demoStore "/rcs/u1/detail" none 1 "id"
    "asc" "http://h" (by decide)

/-- C3: whenever the patch endpoint fails — malformed patch syntax
(`PatchError` / validation `ClientSideError`), immutable-field violation
(`ClientSideError`), unresolvable foreign key (`rcNotFound 400`), or a missing
addressed resource (`rcNotFound 404`) — the store is returned unchanged and
`save` is never invoked; and the three claim failure classes are pairwise
distinct error values. -/
theorem c3_failed_patch_no_mutation (store : List DomainRecord)
    (host u : String) (doc : List PatchOp) (e : Err)
    (h : (ReplicationControllersController.patch store host u doc).1 =
      .error e) :
    (ReplicationControllersController.patch store host u doc).2 = (store, 0) ∧
    (∀ s, Err.clientSideError s ≠ Err.patchError) ∧
    (∀ s c, Err.clientSideError s ≠ Err.rcNotFound c) ∧
    (∀ c, Err.patchError ≠ Err.rcNotFound c) := by
  refine ⟨?_, ?_, ?_, ?_⟩
  case refine_2 => intro s; simp
  case refine_3 => intro s c; simp
  case refine_4 => intro c; simp
  rcases hv : validatePatch doc with e1 | u1
  · have he : ReplicationControllersController.patch store host u doc =
        (.error e1, store, 0) := by
      unfold ReplicationControllersController.patch
      simp only [hv]
    rw [he]
  · rcases hg : store_get_by_uuid store u with _ | d
    · have he : ReplicationControllersController.patch store host u doc =
          (.error (Err.rcNotFound 404), store, 0) := by
        unfold ReplicationControllersController.patch
        simp only [hv, hg]
      rw [he]
    · rcases ha : apply_jsonpatch (patchDict d) doc with e2 | cand
      · have he : ReplicationControllersController.patch store host u doc =
            (.error Err.patchError, store, 0) := by
          unfold ReplicationControllersController.patch
          simp only [hv, hg, ha]
        rw [he]
      · rcases hi : ReplicationController.init store cand with e3 | rc
        · have he : ReplicationControllersController.patch store host u doc =
              (.error e3, store, 0) := by
            unfold ReplicationControllersController.patch
            simp only [hv, hg, ha, hi]
          rw [he]
        · have he : ReplicationControllersController.patch store host u doc =
              (.ok ((rcOfDomain (mergeFields d rc)).convert_links host true),
                storeSave store (mergeFields d rc), 1) := by
            unfold ReplicationControllersController.patch
            simp only [hv, hg, ha, hi, convert_one_eq]
          rw [he] at h
          simp at h

/-- C3 witness: a `replace` of a non-existent field fails with `PatchError`
and leaves the store untouched with zero `save` calls. -/
theorem c3_witness :
    (ReplicationControllersController.patch demoStore "http://h" "u1"
      [PatchOp.replace "/nonexistent" (Val.str "x")]).2 = (demoStore, 0) :=
  (c3_failed_patch_no_mutation demoStore "http://h" "u1"
    [PatchOp.replace "/nonexistent" (Val.str "x")] Err.patchError rfl).1

/-- C5 counterexample: the mapping `{rc_uuid: "u1"}` (resolvable in the demo
store) does not yield a representation whose `rc_uuid` equals the mapping's
value — `__init__`'s final `setattr(self, 'rc_uuid', kwargs.get('rc_id',
Unset))` clears it to the unset sentinel (while the side-created `rc_id`
survives). -/
theorem c5_counterexample :
    ReplicationController.init demoStore [("rc_uuid", Val.str "u1")] =
      .ok { ReplicationController.fresh with
            rc_uuid := Val.unset, rc_id := Val.int 1,
            fields := exposedAttrs ++ ["rc_id"] } ∧
    Val.unset ≠ Val.str "u1" := ⟨rfl, by decide⟩

/-- C5 (amended): construction assigns to each recognized field other than
the `rc_uuid` property the mapping's value when present and the unset
sentinel when absent, and records in `fields` the exposed domain fields plus
the derived `rc_uuid`/`rc_id` pair; the `rc_uuid` property, however, is
finally re-assigned from the mapping's `rc_id` entry, so it ends unset
whenever the mapping lacks `rc_id` — even if the mapping supplied
`rc_uuid`. -/
theorem c5_representation_construction_amended (store : List DomainRecord)
    (kw : List (String × Val)) (rc : ReplicationController)
    (h : ReplicationController.init store kw = .ok rc) :
    rc.uuid = kwGet kw "uuid" ∧ rc.name = kwGet kw "name" ∧
    rc.images = kwGet kw "images" ∧ rc.bay_uuid = kwGet kw "bay_uuid" ∧
    rc.selector = kwGet kw "selector" ∧ rc.replicas = kwGet kw "replicas" ∧
    rc.rc_definition_url = kwGet kw "rc_definition_url" ∧
    rc.rc_data = kwGet kw "rc_data" ∧
    rc.fields = exposedAttrs ++ ["rc_id"] ∧
    (kwGet kw "rc_id" = Val.unset → rc.rc_uuid = Val.unset) :=
  init_ok_char store kw rc h

/-- C5 witness: constructing from `{name: "x"}` assigns the mapping's value
to `name`, the unset sentinel to absent fields, the full `fields` list, and
leaves `rc_uuid` unset. -/
theorem c5_witness :
    demoInitRep.name = Val.str "x" ∧ demoInitRep.uuid = Val.unset ∧
    demoInitRep.fields = exposedAttrs ++ ["rc_id"] ∧
    demoInitRep.rc_uuid = Val.unset := by
  have h := c5_representation_construction_amended [] [("name", Val.str "x")]
    demoInitRep rfl
  exact ⟨h.2.1, h.1, h.2.2.2.2.2.2.2.2.1, h.2.2.2.2.2.2.2.2.2 rfl⟩

/-- C1 counterexample: a PATCH replacing the primary `/uuid` field is not
rejected — the mandatory-immutable list is `['/rc_uuid']` only — and the
stored record's uuid changes from `u1` to `u2` after one `save`. -/
theorem c1_counterexample :
    (ReplicationControllersController.patch demoStore "http://h" "u1"
      [PatchOp.replace "/uuid" (Val.str "u2")]).1.toOption ≠ none ∧
    (ReplicationControllersController.patch demoStore "http://h" "u1"
      [PatchOp.replace "/uuid" (Val.str "u2")]).2 =
      ([{ demoRecord with uuid := Val.str "u2" }], 1) := by
  constructor
  · decide
  · decide

/-- C1 (amended): the mandatory-immutable-field validation protects only the
foreign-key alias `/rc_uuid`: a patch document containing an operation on
`/rc_uuid` fails before any mutation is visible and the store is unchanged
with zero `save` calls; and for every patch document that does not touch the
`uuid` field, a successful PATCH leaves the stored record's `uuid` at its
pre-patch value.  (A patch altering `/uuid` itself, however, is applied — see
the counterexample.) -/
theorem c1_uuid_immutability_amended (store : List DomainRecord)
    (host u : String) (doc : List PatchOp) (d : DomainRecord)
    (hd : store_get_by_uuid store u = some d) (hu : d.uuid ≠ Val.unset) :
    ((∃ op ∈ doc, PatchOp.path op = "/rc_uuid") →
      (ReplicationControllersController.patch store host u doc).1.toOption =
        none ∧
      (ReplicationControllersController.patch store host u doc).2 =
        (store, 0)) ∧
    ((∀ op ∈ doc, pathKey op.path ≠ "uuid") →
      ∀ rep store' n,
        ReplicationControllersController.patch store host u doc =
          (.ok rep, store', n) →
        ∀ d' ∈ store', d'.id = d.id → d'.uuid = d.uuid) := by
  constructor
  · rintro ⟨op, hop, hpath⟩
    obtain ⟨e, he⟩ := validatePatch_error_of_mandatory doc op hop
      (by rw [hpath]; exact List.mem_singleton.mpr rfl)
    have hp : ReplicationControllersController.patch store host u doc =
        (.error e, store, 0) := by
      unfold ReplicationControllersController.patch
      simp only [he]
    rw [hp]
    exact ⟨rfl, rfl⟩
  · rintro hnk rep store' n hp d' hd' hid
    obtain ⟨d0, cand, rc, hg0, ha, hi, hs⟩ :=
      patch_ok_dissect store host u doc rep store' n hp
    rw [hd] at hg0
    obtain rfl : d = d0 := Option.some.inj hg0
    rw [hs] at hd'
    have hidm : d'.id = (mergeFields d rc).id := by
      rw [mergeFields_eq]
      exact hid
    have hdm := mem_storeSave_id store (mergeFields d rc) d' hd' hidm
    rw [hdm, mergeFields_eq]
    show unsetToNull rc.uuid = d.uuid
    have hrc : rc.uuid = kwGet cand "uuid" := (init_ok_char store cand rc hi).1
    have hkw : kwGet cand "uuid" = kwGet (patchDict d) "uuid" :=
      apply_jsonpatch_preserves_key doc (patchDict d) cand "uuid" hnk ha
    rw [hrc, hkw, patchDict_uuid]
    unfold unsetToNull
    rw [if_neg hu]

/-- C1 witness: replacing `/rc_uuid` on the demo store is rejected with the
store unchanged; after a successful patch of `/name` only, the saved record's
uuid equals its pre-patch value. -/
theorem c1_witness :
    (ReplicationControllersController.patch demoStore "http://h" "u1"
      [PatchOp.replace "/rc_uuid" (Val.str "u9")]).1.toOption = none ∧
    (ReplicationControllersController.patch demoStore "http://h" "u1"
      [PatchOp.replace "/rc_uuid" (Val.str "u9")]).2 = (demoStore, 0) ∧
    ({ demoRecord with name := Val.str "n2" } : DomainRecord).uuid =
      demoRecord.uuid := by
  have h := c1_uuid_immutability_amended demoStore "http://h" "u1"
    [PatchOp.replace "/rc_uuid" (Val.str "u9")] demoRecord rfl (by decide)
  have h1 := h.1 ⟨PatchOp.replace "/rc_uuid" (Val.str "u9"), by simp, rfl⟩
  have h' := c1_uuid_immutability_amended demoStore "http://h" "u1"
    [PatchOp.replace "/name" (Val.str "n2")] demoRecord rfl (by decide)
  have h2 := h'.2 (by decide) (demoNamePatch.1.toOption.getD
      ReplicationController.fresh) demoNamePatch.2.1 demoNamePatch.2.2
    (by rfl) { demoRecord with name := Val.str "n2" } (by decide) rfl
  exact ⟨h1.1, h1.2, h2⟩

/-- C4: after any successful PATCH, the saved record keeps the pre-patch
values of the create-only `rc_definition_url` and `rc_data` fields (the merge
loop skips them), while the merge loop applies the candidate value of every
other exposed domain field (`uuid`, `name`, `images`, `bay_uuid`, `selector`,
`replicas`, with the unset sentinel normalized to null). -/
theorem c4_create_only_fields_ignored (store : List DomainRecord)
    (host u : String) (doc : List PatchOp) (d : DomainRecord)
    (rep : ReplicationController) (store' : List DomainRecord) (n : Nat)
    (hd : store_get_by_uuid store u = some d)
    (hp : ReplicationControllersController.patch store host u doc =
      (.ok rep, store', n)) :
    (∀ d' ∈ store', d'.id = d.id →
      d'.rc_definition_url = d.rc_definition_url ∧ d'.rc_data = d.rc_data) ∧
    (∀ rc : ReplicationController, mergeFields d rc =
      { d with uuid := unsetToNull rc.uuid, name := unsetToNull rc.name,
               images := unsetToNull rc.images,
               bay_uuid := unsetToNull rc.bay_uuid,
               selector := unsetToNull rc.selector,
               replicas := unsetToNull rc.replicas }) := by
  obtain ⟨d0, cand, rc, hg0, ha, hi, hs⟩ :=
    patch_ok_dissect store host u doc rep store' n hp
  rw [hd] at hg0
  obtain rfl : d = d0 := Option.some.inj hg0
  constructor
  · intro d' hd' hid
    rw [hs] at hd'
    have hidm : d'.id = (mergeFields d rc).id := by
      rw [mergeFields_eq]
      exact hid
    have hdm := mem_storeSave_id store (mergeFields d rc) d' hd' hidm
    rw [hdm, mergeFields_eq]
    exact ⟨rfl, rfl⟩
  · intro rc0
    exact mergeFields_eq d rc0

/-- C4 witness: patching `u1` with a document replacing `/rc_data` and
`/name` leaves `rc_definition_url` and `rc_data` at their stored values while
the name change is applied. -/
theorem c4_witness :
    ({ demoRecord with name := Val.str "n3" } : DomainRecord).rc_definition_url
      = demoRecord.rc_definition_url ∧
    ({ demoRecord with name := Val.str "n3" } : DomainRecord).rc_data
      = demoRecord.rc_data ∧
    demoDataPatch.2.1 = [{ demoRecord with name := Val.str "n3" }] := by
  have h := c4_create_only_fields_ignored demoStore "http://h" "u1"
    [PatchOp.replace "/rc_data" (Val.str "xx"),
     PatchOp.replace "/name" (Val.str "n3")] demoRecord
    (demoDataPatch.1.toOption.getD ReplicationController.fresh)
    demoDataPatch.2.1 demoDataPatch.2.2 rfl (by rfl)
  have h1 := h.1 { demoRecord with name := Val.str "n3" } (by decide) rfl
  exact ⟨h1.1, h1.2, by decide⟩

/-- C8 counterexample: with exactly 2 available records and limit=2 the
claim says `next` is absent, but the listing pipeline returns 2 records —
equal to the limit — so the assembled collection's `next` is present. -/
theorem c8_counterexample :
    (ReplicationControllersController.get_rcs_collection demoStore2 none 2
      "id" "asc" false none "http://h").toOption ≠ none ∧
    ((ReplicationControllersController.get_rcs_collection demoStore2 none 2
      "id" "asc" false none "http://h").toOption.getD ⟨[], none⟩).next.isSome
      = true := by
  constructor
  · decide
  · decide

/-- C8 (amended): the assembled collection holds one converted representation
per record, and `next` is present if and only if the number of records
returned equals the limit — also when the returned page is the final one, as
with exactly 2 available records and limit 2 — in which case it carries the
same resource URL (defaulting to `rcs`), the limit, the sort key and
direction, and `marker` set to the last returned record's identifier. -/
theorem c8_collection_pagination_amended (store rpc_rcs : List DomainRecord)
    (limit : Nat) (url : Option String) (expand : Bool) (sk sd host : String)
    (c : ReplicationControllerCollection)
    (h : ReplicationControllerCollection.convert_with_links store rpc_rcs
      limit url expand sk sd host = .ok c) :
    c.rcs.length = rpc_rcs.length ∧
    (c.next.isSome ↔ rpc_rcs.length = limit) ∧
    (∀ nl, c.next = some nl →
      nl.url = url.getD "rcs" ∧ nl.limit = limit ∧ nl.sort_key = sk ∧
      nl.sort_dir = sd ∧
      nl.marker = (rpc_rcs.getLast?).elim Val.unset DomainRecord.uuid) := by
  rw [collection_convert_eq] at h
  have hc := Except.ok.inj h
  subst hc
  refine ⟨List.length_map _ _, ?_, ?_⟩
  · show (ReplicationControllerCollection.get_next _ limit url sk sd).isSome
      ↔ _
    unfold ReplicationControllerCollection.get_next
    rw [List.length_map]
    split_ifs with hl
    · simp [hl]
    · simp [hl]
  · intro nl hnl
    have hnl' : ReplicationControllerCollection.get_next
        (rpc_rcs.map fun p => (rcOfDomain p).convert_links host expand)
        limit url sk sd = some nl := hnl
    unfold ReplicationControllerCollection.get_next at hnl'
    rw [List.length_map] at hnl'
    split_ifs at hnl' with hl
    · obtain rfl : _ = nl := Option.some.inj hnl'
      refine ⟨rfl, rfl, rfl, rfl, ?_⟩
      show ((rpc_rcs.map fun p => (rcOfDomain p).convert_links host expand)
        |>.getLast?).elim Val.unset ReplicationController.uuid = _
      rw [List.getLast?_map]
      rcases rpc_rcs.getLast? with _ | p
      · rfl
      · show ((rcOfDomain p).convert_links host expand).uuid = p.uuid
        exact convert_links_domain_uuid p host expand

/-- C8 witness: with limit 2 over the three-record store (sorted by id
ascending) the assembled collection has exactly 2 items and a `next` link
whose marker is the 2nd record's identifier `u2`. -/
theorem c8_witness :
    demoCollection.rcs.length = 2 ∧ demoCollection.next.isSome = true ∧
    (demoCollection.next.getD blankNext).marker = Val.str "u2" := by
  have h := c8_collection_pagination_amended demoStore3 demoListed 2 none
    false "id" "asc" "http://h" demoCollection (by rfl)
  refine ⟨h.1.trans (by rfl), ?_, ?_⟩
  · exact h.2.1.mpr (by rfl)
  · exact (h.2.2 (demoCollection.next.getD blankNext) (by rfl)).2.2.2.2
